import Mathlib

/-!
Verification of the defect-log ingestion engine of bug-whisperer-ai-insights.

The embedding models, over `List Char`:
* the shared CSV parser utility (`parseCSV`, `parseCSVRow`, `stripQuotes`,
  `findHeaderIndex`, `extractDefectHeaderMappings`);
* the file-upload modal's `processFile`, split into its `.csv` branch
  (`processCSV`, the variant that delegates to the shared utility) and its
  plain-text branch (`processTXT`, the label-block parser);
* the earlier inline tokenizer of the first upload-modal variant
  (`parseCSVRowV1`), kept because its quoting rules differ.

Delimiter and quote character are fixed to `,` and `"`: every call site uses
the defaults.  JavaScript `trim()` is modelled over ASCII whitespace, which
covers every character the parser can encounter here.  `Math.random`-based id
disambiguation is modelled by an explicit oracle `Nat → List Char` plus a fuel
bound on the retry loop; theorems below show the loop is never entered.
-/

/-- Characters treated as whitespace by `trim()` on the inputs in scope. -/
def isWS (c : Char) : Bool :=
  c = ' ' || c = '\t' || c = '\n' || c = '\r'

/-- JavaScript `s.trim()`. -/
def trimChars (l : List Char) : List Char :=
  ((l.dropWhile isWS).reverse.dropWhile isWS).reverse

/-- Truthiness test `!s.trim()`: the string is empty or whitespace-only. -/
def isBlank (l : List Char) : Bool :=
  l.all isWS

/-- JavaScript `hay.startsWith(pat)` on char lists. -/
def startsWithL : List Char → List Char → Bool
  | _, [] => true
  | [], _ :: _ => false
  | a :: as, b :: bs => a = b && startsWithL as bs

/-- JavaScript `hay.includes(pat)` on char lists. -/
def containsL : List Char → List Char → Bool
  | [], pat => pat.isEmpty
  | a :: t, pat => startsWithL (a :: t) pat || containsL t pat

/-- JavaScript `s.toLowerCase()` (ASCII inputs only). -/
def toLowerL (l : List Char) : List Char :=
  l.map Char.toLower

/-- Decimal digits of `n`, most significant first; fuel-structured so that it
reduces in the kernel.  `natToDec` below supplies fuel `n`, which is enough. -/
def toDecAux : Nat → Nat → List Char
  | 0, _ => []
  | f + 1, n => if n = 0 then [] else toDecAux f (n / 10) ++ [Nat.digitChar (n % 10)]

/-- JavaScript number-to-string for the naturals used in synthesized ids. -/
def natToDec (n : Nat) : List Char :=
  if n = 0 then ['0'] else toDecAux n n

/-- The synthesized defect identifier `BUG-<n>`. -/
def bugId (n : Nat) : List Char :=
  ("BUG-").toList ++ natToDec n

/-! ## The shared CSV parser utility (quote-aware row splitter and tokenizer) -/

/-- Row accumulation loop of the shared `parseCSV`: scans the text character by
character; a doubled quote is copied as one quote and skipped; any other quote
toggles `inQuotes` and is copied; `\n`, or `\r` directly followed by `\n`, ends
the current row when `inQuotes` is false (rows blank after `trim()` are
dropped); every other character is appended to the current row. -/
def splitRowsAux : List Char → List Char → Bool → List (List Char)
  | [], cur, _ => if isBlank cur then [] else [cur]
  | '"' :: '"' :: rest, cur, inQ => splitRowsAux rest (cur ++ ['"']) inQ
  | '"' :: rest, cur, inQ => splitRowsAux rest (cur ++ ['"']) (!inQ)
  | '\n' :: rest, cur, inQ =>
    if inQ then splitRowsAux rest (cur ++ ['\n']) inQ
    else (if isBlank cur then [] else [cur]) ++ splitRowsAux rest [] inQ
  | '\r' :: '\n' :: rest, cur, inQ =>
    if inQ then splitRowsAux ('\n' :: rest) (cur ++ ['\r']) inQ
    else (if isBlank cur then [] else [cur]) ++ splitRowsAux rest [] inQ
  | c :: rest, cur, inQ => splitRowsAux rest (cur ++ [c]) inQ

/-- The logical rows (raw text) produced by the shared `parseCSV`'s scanner. -/
def splitRows (text : List Char) : List (List Char) :=
  splitRowsAux text [] false

/-- `stripQuotes` of the shared utility: if the value still starts and ends
with a quote (length at least 2), drop that pair and trim; otherwise trim. -/
def stripQuotes (value : List Char) : List Char :=
  if 2 ≤ value.length ∧ value.head? = some '"' ∧ value.getLast? = some '"' then
    trimChars ((value.drop 1).dropLast)
  else trimChars value

/-- Field loop of the shared `parseCSVRow`: a doubled quote contributes one
literal quote (no `inQuotes` condition in this variant); any other quote
toggles `inQuotes` and is dropped; a comma outside quotes ends the field, which
is emitted as `stripQuotes(value.trim())`. -/
def parseCSVRowAux : List Char → Bool → List Char → List (List Char)
  | [], _, cur => [stripQuotes (trimChars cur)]
  | '"' :: '"' :: rest, inQ, cur => parseCSVRowAux rest inQ (cur ++ ['"'])
  | '"' :: rest, inQ, cur => parseCSVRowAux rest (!inQ) cur
  | ',' :: rest, inQ, cur =>
    if inQ then parseCSVRowAux rest inQ (cur ++ [','])
    else stripQuotes (trimChars cur) :: parseCSVRowAux rest inQ []
  | c :: rest, inQ, cur => parseCSVRowAux rest inQ (cur ++ [c])

/-- The shared utility's `parseCSVRow` (default delimiter and quote char). -/
def parseCSVRow (row : List Char) : List (List Char) :=
  if isBlank row then [] else parseCSVRowAux row false []

/-- The shared utility's `parseCSV`: guard against blank input, split into
logical rows, tokenize each row (the source pushes `parseCSVRow(currentRow)`
at each row boundary, which is the same as mapping over the split). -/
def parseCSV (text : List Char) : List (List (List Char)) :=
  if isBlank text then [] else (splitRows text).map parseCSVRow

/-- Field loop of the first upload-modal variant's inline `parseCSVRow`: here
the doubled-quote escape additionally requires `inQuotes`, quotes are never
kept in the value, fields are pushed untrimmed and the result is trimmed by a
final `map`. -/
def parseCSVRowV1Aux : List Char → Bool → List Char → List (List Char)
  | [], _, cur => [cur]
  | '"' :: '"' :: rest, true, cur => parseCSVRowV1Aux rest true (cur ++ ['"'])
  | '"' :: rest, inQ, cur => parseCSVRowV1Aux rest (!inQ) cur
  | ',' :: rest, inQ, cur =>
    if inQ then parseCSVRowV1Aux rest inQ (cur ++ [','])
    else cur :: parseCSVRowV1Aux rest inQ []
  | c :: rest, inQ, cur => parseCSVRowV1Aux rest inQ (cur ++ [c])

/-- The first upload-modal variant's inline `parseCSVRow`. -/
def parseCSVRowV1 (row : List Char) : List (List Char) :=
  if isBlank row then [] else (parseCSVRowV1Aux row false []).map trimChars

/-! ## Header mapping (shared utility `findHeaderIndex` / `extractDefectHeaderMappings`) -/

/-- `Array.findIndex` returning `-1` when no element matches. -/
def findIdxIntAux (p : List Char → Bool) : List (List Char) → Nat → Int
  | [], _ => -1
  | h :: t, i => if p h then Int.ofNat i else findIdxIntAux p t (i + 1)

/-- The shared utility's `findHeaderIndex`: index of the first header that
case-insensitively contains any of the candidate names, `-1` if none. -/
def findHeaderIndex (headers : List (List Char)) (possibleNames : List (List Char)) : Int :=
  findIdxIntAux
    (fun h => possibleNames.any (fun name => containsL (toLowerL h) (toLowerL name)))
    headers 0

def subjectNames : List (List Char) :=
  ["subject".toList, "title".toList, "summary".toList, "issue".toList, "bug".toList]

def descNames : List (List Char) :=
  ["description".toList, "desc".toList, "details".toList, "summary".toList]

def stepsNames : List (List Char) :=
  ["steps".toList, "reproduce".toList, "reproduction".toList, "how to".toList]

def actualNames : List (List Char) :=
  ["actual".toList, "result".toList, "observed".toList, "outcome".toList]

def expectedNames : List (List Char) :=
  ["expected".toList, "should".toList, "desired".toList]

def featureNames : List (List Char) :=
  ["feature".toList, "module".toList, "component".toList, "area".toList, "func".toList]

def originNames : List (List Char) :=
  ["origin".toList, "environment".toList, "env".toList, "found in".toList, "source".toList]

def testCaseNames : List (List Char) :=
  ["test".toList, "case".toList, "tc".toList, "testcase".toList]

/-- The record returned by `extractDefectHeaderMappings`. -/
structure HeaderMappings where
  subjectIndex : Int
  descIndex : Int
  stepsIndex : Int
  actualIndex : Int
  expectedIndex : Int
  featureIndex : Int
  originIndex : Int
  testCaseIndex : Int
deriving DecidableEq

/-- The shared utility's `extractDefectHeaderMappings`. -/
def extractDefectHeaderMappings (headers : List (List Char)) : HeaderMappings where
  subjectIndex := findHeaderIndex headers subjectNames
  descIndex := findHeaderIndex headers descNames
  stepsIndex := findHeaderIndex headers stepsNames
  actualIndex := findHeaderIndex headers actualNames
  expectedIndex := findHeaderIndex headers expectedNames
  featureIndex := findHeaderIndex headers featureNames
  originIndex := findHeaderIndex headers originNames
  testCaseIndex := findHeaderIndex headers testCaseNames

/-! ## Defect records and the CSV record builder (`processFile`, `.csv` branch) -/

/-- The `DefectData` interface: the nine canonical fields. -/
structure DefectData where
  id : List Char
  subject : List Char
  description : List Char
  stepsToReproduce : List Char
  actualResult : List Char
  expectedResult : List Char
  featureTag : List Char
  bugOrigin : List Char
  testCaseId : List Char
deriving DecidableEq

/-- `cells[idx]` for a (possibly negative / out-of-range) mapped index, with
JavaScript `undefined` collapsed to the empty string (both are falsy). -/
def cellAt (cells : List (List Char)) (idx : Int) : List Char :=
  if 0 ≤ idx then cells.getD idx.toNat [] else []

/-- One guarded field assignment of the row loop:
`if (idx >= 0 && idx < cells.length && cells[idx]) field = cells[idx] || dflt`,
with the field preinitialized to `dflt`. -/
def fieldVal (cells : List (List Char)) (idx : Int) (dflt : List Char) : List Char :=
  if 0 ≤ idx ∧ idx.toNat < cells.length ∧ cellAt cells idx ≠ [] then cellAt cells idx
  else dflt

/-- The defect built from one CSV data row and the header mappings. -/
def buildRow (m : HeaderMappings) (cells : List (List Char)) (id : List Char) : DefectData where
  id := id
  subject := fieldVal cells m.subjectIndex ("Unknown").toList
  description := fieldVal cells m.descIndex []
  stepsToReproduce := fieldVal cells m.stepsIndex []
  actualResult := fieldVal cells m.actualIndex []
  expectedResult := fieldVal cells m.expectedIndex []
  featureTag := fieldVal cells m.featureIndex ("Untagged").toList
  bugOrigin := fieldVal cells m.originIndex ("Unknown").toList
  testCaseId := fieldVal cells m.testCaseIndex ("N/A").toList

/-- Row-skip test: `cells.length <= 1 || (subjectIndex >= 0 && !cells[subjectIndex])`. -/
def skipRow (m : HeaderMappings) (cells : List (List Char)) : Prop :=
  cells.length ≤ 1 ∨ (0 ≤ m.subjectIndex ∧ cellAt cells m.subjectIndex = [])

instance (m : HeaderMappings) (cells : List (List Char)) : Decidable (skipRow m cells) := by
  unfold skipRow; infer_instance

/-- The id-disambiguation `while` loop: while the candidate is taken, retry
with `BUG-<n>-<random suffix>`.  The random source is an explicit oracle and
the loop is fuel-bounded (on exhausted fuel the current candidate is kept);
the theorems below show the body never runs, so neither modelling choice is
observable. -/
def idLoop (oracle : Nat → List Char) (base : List Char) (used : List (List Char)) :
    Nat → List Char → List Char
  | 0, cand => cand
  | f + 1, cand =>
    if cand ∈ used then idLoop oracle base used f (base ++ '-' :: oracle f) else cand

/-- Synthesize the id for data row `i` (0-based): start from `BUG-<i+1>`. -/
def mkId (oracle : Nat → List Char) (fuel : Nat) (used : List (List Char))
    (base : List Char) : List Char :=
  idLoop oracle base used fuel base

/-- The data-row loop of `processFile`'s `.csv` branch: `i` is the loop index
(it advances on skipped rows too), `used` is the `processedIds` set. -/
def buildRows (oracle : Nat → List Char) (fuel : Nat) (m : HeaderMappings) :
    List (List (List Char)) → Nat → List (List Char) → List DefectData
  | [], _, _ => []
  | cells :: rest, i, used =>
    if skipRow m cells then buildRows oracle fuel m rest (i + 1) used
    else
      let id := mkId oracle fuel used (bugId (i + 1))
      buildRow m cells id :: buildRows oracle fuel m rest (i + 1) (id :: used)

/-- Oracle-free reference form of the row loop, used to state determinism:
each emitted row gets `BUG-<i+1>` directly. -/
def buildRowsDet (m : HeaderMappings) :
    List (List (List Char)) → Nat → List DefectData
  | [], _ => []
  | cells :: rest, i =>
    if skipRow m cells then buildRowsDet m rest (i + 1)
    else buildRow m cells (bugId (i + 1)) :: buildRowsDet m rest (i + 1)

/-- The typed failures `processFile` can surface for a parse. -/
inductive ParseError where
  | emptyFile
  | schemaError
  | emptyResult
deriving DecidableEq

/-- `processFile`, `.csv` branch (the variant delegating to the shared CSV
utility): parse rows; fewer than two rows is the empty-file failure; a missing
subject column is the schema failure; otherwise build records from the data
rows; an empty final collection is the no-extractable-records failure. -/
def processCSV (oracle : Nat → List Char) (fuel : Nat) (text : List Char) :
    Except ParseError (List DefectData) :=
  let rows := parseCSV text
  if rows.length ≤ 1 then .error .emptyFile
  else
    let headers := rows.headD []
    let m := extractDefectHeaderMappings headers
    if m.subjectIndex = -1 then .error .schemaError
    else
      let dataRows := (rows.drop 1).filter (fun r => 0 < r.length)
      let defects := buildRows oracle fuel m dataRows 0 []
      if 0 < defects.length then .ok defects else .error .emptyResult

/-! ## Label-block parser (`processFile`, plain-text branch) -/

/-- Scanner state for `text.split(/\n{2,}|---+/g)`: `main` accumulates the
current piece (reversed); `nl` is inside a greedy run of newlines that already
matched `\n{2,}`; `dash` is inside a greedy run of dashes that already matched
`---+`. -/
inductive SBMode where
  | main (acc : List Char)
  | nl
  | dash

/-- Character scan implementing `text.split(/\n{2,}|---+/g)`: a separator is
any run of two-or-more newlines or of three-or-more dashes, anywhere in the
text; adjacent separators produce empty pieces, as JavaScript `split` does. -/
def sbAux : SBMode → List Char → List (List Char)
  | .main acc, [] => [acc.reverse]
  | .main acc, '\n' :: '\n' :: rest => acc.reverse :: sbAux .nl rest
  | .main acc, '-' :: '-' :: '-' :: rest => acc.reverse :: sbAux .dash rest
  | .main acc, c :: rest => sbAux (.main (c :: acc)) rest
  | .nl, [] => [[]]
  | .nl, '\n' :: rest => sbAux .nl rest
  | .nl, '-' :: '-' :: '-' :: rest => [] :: sbAux .dash rest
  | .nl, c :: rest => sbAux (.main [c]) rest
  | .dash, [] => [[]]
  | .dash, '-' :: rest => sbAux .dash rest
  | .dash, '\n' :: '\n' :: rest => [] :: sbAux .nl rest
  | .dash, c :: rest => sbAux (.main [c]) rest

/-- `text.split(/\n{2,}|---+/g)`. -/
def splitBlocks (text : List Char) : List (List Char) :=
  sbAux (.main []) text

/-- `block.split("\n")`. -/
def splitLinesAux : List Char → List Char → List (List Char)
  | [], acc => [acc.reverse]
  | '\n' :: rest, acc => acc.reverse :: splitLinesAux rest []
  | c :: rest, acc => splitLinesAux rest (c :: acc)

def splitLines (block : List Char) : List (List Char) :=
  splitLinesAux block []

/-- `extractValueAfterLabel`: everything after the first colon, trimmed; the
empty string when the line has no colon. -/
def extractValueAfterLabel (line : List Char) : List Char :=
  match line.dropWhile (fun c => c ≠ ':') with
  | [] => []
  | _ :: rest => trimChars rest

/-- Which canonical field (if any) a line assigns, following the `else if`
chain of the plain-text branch: 0 subject, 1 description, 2 stepsToReproduce,
3 actualResult, 4 expectedResult, 5 featureTag, 6 bugOrigin, 7 testCaseId. -/
def lineField (line : List Char) : Option (Fin 8) :=
  let low := toLowerL line
  if containsL low ("subject:").toList || containsL low ("title:").toList then some 0
  else if containsL low ("description:").toList then some 1
  else if containsL low ("steps to reproduce:").toList
       || containsL low ("reproduction:").toList then some 2
  else if containsL low ("actual result:").toList
       || containsL low ("actual:").toList then some 3
  else if containsL low ("expected result:").toList
       || containsL low ("expected:").toList then some 4
  else if containsL low ("feature:").toList || containsL low ("module:").toList then some 5
  else if containsL low ("origin:").toList || containsL low ("environment:").toList then some 6
  else if containsL low ("test case:").toList || containsL low ("test id:").toList then some 7
  else none

/-- Processing one line of a block: overwrite the matched field (if any) with
the value after the label, exactly as the `forEach` body assigns it. -/
def scanLine (f : Fin 8 → Option (List Char)) (line : List Char) :
    Fin 8 → Option (List Char) :=
  match lineField line with
  | none => f
  | some k => fun j => if j = k then some (extractValueAfterLabel line) else f j

/-- `x || dflt` for a possibly-unassigned (hence possibly-empty) field. -/
def orFalsy (x : Option (List Char)) (dflt : List Char) : List Char :=
  match x with
  | none => dflt
  | some v => if v = [] then dflt else v

/-- The defect built from one label block (`index` is its 0-based position
among the retained blocks). -/
def buildBlock (index : Nat) (block : List Char) : DefectData :=
  let f := (splitLines block).foldl scanLine (fun _ => none)
  { id := bugId (index + 1)
    subject := orFalsy (f 0) ("Unknown").toList
    description := orFalsy (f 1) []
    stepsToReproduce := orFalsy (f 2) []
    actualResult := orFalsy (f 3) []
    expectedResult := orFalsy (f 4) []
    featureTag := orFalsy (f 5) ("Untagged").toList
    bugOrigin := orFalsy (f 6) ("Unknown").toList
    testCaseId := orFalsy (f 7) ("N/A").toList }

/-- The `forEach` over retained blocks. -/
def buildBlocks : List (List Char) → Nat → List DefectData
  | [], _ => []
  | b :: rest, i => buildBlock i b :: buildBlocks rest (i + 1)

/-- `processFile`, plain-text branch: split into blocks, discard blocks blank
after `trim()`, build one record per retained block; an empty final collection
is the no-extractable-records failure. -/
def processTXT (text : List Char) : Except ParseError (List DefectData) :=
  let blocks := (splitBlocks text).filter (fun b => !isBlank b)
  let defects := buildBlocks blocks 0
  if 0 < defects.length then .ok defects else .error .emptyResult

/-! ## Concrete inputs used by the scenario theorems -/

/-- A deterministic stand-in for the random-suffix source (never consulted). -/
def oracle0 : Nat → List Char := fun _ => []

/-- Scenario A input: fully-quoted header and one fully-quoted data row. -/
def scenarioAText : List Char :=
  ("\"Bug Title\",\"Detail\",\"How To Repro\",\"Observed\",\"Expected\",\"Area\",\"Found In\",\"Related TC\"\n\"Login crash\",\"App crashes on login\",\"Open app, login\",\"Crash\",\"No crash\",\"Auth\",\"Prod\",\"TC-9\"").toList

/-- The record the code actually produces for Scenario A. -/
def recordA : DefectData where
  id := ("BUG-1").toList
  subject := ("Login crash").toList
  description := []
  stepsToReproduce := ("Open app, login").toList
  actualResult := ("Crash").toList
  expectedResult := ("No crash").toList
  featureTag := ("Auth").toList
  bugOrigin := ("Prod").toList
  testCaseId := ("TC-9").toList

/-- Scenario C input: two label blocks separated by a line of five dashes. -/
def scenarioCText : List Char :=
  ("Subject: First bug\nFeature: Auth\n-----\nSubject: Second bug").toList

def recordC1 : DefectData where
  id := ("BUG-1").toList
  subject := ("First bug").toList
  description := []
  stepsToReproduce := []
  actualResult := []
  expectedResult := []
  featureTag := ("Auth").toList
  bugOrigin := ("Unknown").toList
  testCaseId := ("N/A").toList

def recordC2 : DefectData where
  id := ("BUG-2").toList
  subject := ("Second bug").toList
  description := []
  stepsToReproduce := []
  actualResult := []
  expectedResult := []
  featureTag := ("Untagged").toList
  bugOrigin := ("Unknown").toList
  testCaseId := ("N/A").toList

/-- First record of the plain-text input with a single blank line between
labelled lines. -/
def recordT1 : DefectData where
  id := ("BUG-1").toList
  subject := ("A").toList
  description := []
  stepsToReproduce := []
  actualResult := []
  expectedResult := []
  featureTag := ("Untagged").toList
  bugOrigin := ("Unknown").toList
  testCaseId := ("N/A").toList

def recordT2 : DefectData where
  id := ("BUG-2").toList
  subject := ("B").toList
  description := []
  stepsToReproduce := []
  actualResult := []
  expectedResult := []
  featureTag := ("Untagged").toList
  bugOrigin := ("Unknown").toList
  testCaseId := ("N/A").toList

/-- The record produced from a block that carries two Subject lines. -/
def recordS : DefectData where
  id := ("BUG-1").toList
  subject := ("B").toList
  description := []
  stepsToReproduce := []
  actualResult := []
  expectedResult := []
  featureTag := ("Untagged").toList
  bugOrigin := ("Unknown").toList
  testCaseId := ("N/A").toList

def recordCsvW : DefectData where
  id := ("BUG-1").toList
  subject := ("T1").toList
  description := ("D1").toList
  stepsToReproduce := []
  actualResult := []
  expectedResult := []
  featureTag := ("Untagged").toList
  bugOrigin := ("Unknown").toList
  testCaseId := ("N/A").toList

def recordTxtW : DefectData where
  id := ("BUG-1").toList
  subject := ("X").toList
  description := []
  stepsToReproduce := []
  actualResult := []
  expectedResult := []
  featureTag := ("Untagged").toList
  bugOrigin := ("Unknown").toList
  testCaseId := ("N/A").toList

/-! ## General lemmas about the embedded functions -/

theorem isBlank_eq_false_of_mem {c : Char} {l : List Char} (h : c ∈ l)
    (hws : isWS c = false) : isBlank l = false := by
  simp only [isBlank, List.all_eq_false]
  exact ⟨c, h, by simp [hws]⟩

theorem splitRowsAux_cons_plain (c : Char) (rest cur : List Char) (inQ : Bool)
    (hq : c ≠ '"') (hn : c ≠ '\n') (hr : c ≠ '\r') :
    splitRowsAux (c :: rest) cur inQ = splitRowsAux rest (cur ++ [c]) inQ :=
  splitRowsAux.eq_6 cur inQ c rest (fun _ hc _ => hq hc) (fun hc => hq hc)
    (fun hc => hn hc) (fun _ hc _ => hr hc)

theorem splitRowsAux_plain (v : List Char)
    (hv : ∀ c ∈ v, c ≠ '"' ∧ c ≠ '\n' ∧ c ≠ '\r') :
    ∀ (rest cur : List Char) (inQ : Bool),
    splitRowsAux (v ++ rest) cur inQ = splitRowsAux rest (cur ++ v) inQ := by
  induction v with
  | nil => simp
  | cons c t ih =>
    intro rest cur inQ
    obtain ⟨hq, hn, hr⟩ := hv c (by simp)
    rw [List.cons_append, splitRowsAux_cons_plain c (t ++ rest) cur inQ hq hn hr,
      ih (fun d hd => hv d (by simp [hd])) rest (cur ++ [c]) inQ, List.append_assoc]
    rfl

theorem splitRowsAux_quote (rest cur : List Char) (inQ : Bool)
    (hh : rest.head? ≠ some '"') :
    splitRowsAux ('"' :: rest) cur inQ = splitRowsAux rest (cur ++ ['"']) (!inQ) :=
  splitRowsAux.eq_3 cur inQ rest (fun _ hre => hh (by simp [hre]))

theorem splitRowsAux_nl_inQ (rest cur : List Char) :
    splitRowsAux ('\n' :: rest) cur true = splitRowsAux rest (cur ++ ['\n']) true := by
  rw [splitRowsAux.eq_4, if_pos rfl]

theorem splitRowsAux_cr_inQ (rest cur : List Char) :
    splitRowsAux ('\r' :: '\n' :: rest) cur true
      = splitRowsAux ('\n' :: rest) (cur ++ ['\r']) true := by
  rw [splitRowsAux.eq_5, if_pos rfl]

theorem splitRowsAux_nl_break (rest cur : List Char) :
    splitRowsAux ('\n' :: rest) cur false
      = (if isBlank cur then [] else [cur]) ++ splitRowsAux rest [] false := by
  rw [splitRowsAux.eq_4, if_neg (by simp)]

theorem parseCSVRowAux_inQ (v : List Char) (hv : '"' ∉ v) :
    ∀ (rest cur : List Char),
    parseCSVRowAux (v ++ rest) true cur = parseCSVRowAux rest true (cur ++ v) := by
  induction v with
  | nil => simp
  | cons c t ih =>
    intro rest cur
    have hq : c ≠ '"' := by rintro rfl; exact hv (by simp)
    have step : parseCSVRowAux (c :: (t ++ rest)) true cur
        = parseCSVRowAux (t ++ rest) true (cur ++ [c]) := by
      by_cases hc : c = ','
      · subst hc; rw [parseCSVRowAux.eq_4, if_pos rfl]
      · exact parseCSVRowAux.eq_5 true cur c (t ++ rest) (fun _ h _ => hq h)
          (fun h => hq h) (fun h => hc h)
    rw [List.cons_append, step, ih (fun h => hv (by simp [h])) rest (cur ++ [c]),
      List.append_assoc]
    rfl

theorem parseCSVRowAux_quote (rest cur : List Char) (inQ : Bool)
    (hh : rest.head? ≠ some '"') :
    parseCSVRowAux ('"' :: rest) inQ cur = parseCSVRowAux rest (!inQ) cur :=
  parseCSVRowAux.eq_3 inQ cur rest (fun _ hre => hh (by simp [hre]))

theorem stripQuotes_head_ne (v : List Char) (h : v.head? ≠ some '"') :
    stripQuotes v = trimChars v := by
  unfold stripQuotes
  rw [if_neg]
  rintro ⟨-, hh, -⟩
  exact h hh

theorem stripQuotes_last_ne (v : List Char) (h : v.getLast? ≠ some '"') :
    stripQuotes v = trimChars v := by
  unfold stripQuotes
  rw [if_neg]
  rintro ⟨-, -, hh⟩
  exact h hh

/-- Round trip of a quoted comma-carrying value through the tokenizer. -/
theorem parseCSVRow_comma_roundTrip (v : List Char) (hv : '"' ∉ v)
    (htr : trimChars v = v) (hc : ',' ∈ v) :
    parseCSVRow ('"' :: v ++ ['"']) = [v] := by
  obtain ⟨c, t, rfl⟩ : ∃ c t, v = c :: t := by
    cases v with
    | nil => simp at hc
    | cons c t => exact ⟨c, t, rfl⟩
  rw [parseCSVRow, if_neg (by rw [isBlank_eq_false_of_mem (c := '"') (by simp) (by decide)]; simp)]
  rw [List.cons_append, parseCSVRowAux_quote _ _ _
    (by simp; rintro rfl; exact hv (by simp))]
  simp only [Bool.not_false]
  rw [parseCSVRowAux_inQ (c :: t) hv ['"'] []]
  rw [parseCSVRowAux_quote _ _ _ (by simp)]
  simp only [Bool.not_true]
  rw [parseCSVRowAux.eq_1]
  rw [List.nil_append, htr, stripQuotes_head_ne _ (by
    simp only [List.head?_cons]
    intro h
    exact hv (by have hce : c = '"' := Option.some_inj.mp h; subst hce; simp))]
  rw [htr]

/-- Round trip of a doubled-quote-escaped value through the tokenizer, for a
value that is not made of quote characters alone. -/
theorem parseCSVRow_quote_roundTrip (u w : List Char) (hu : '"' ∉ u) (hw : '"' ∉ w)
    (hne : ¬(u = [] ∧ w = []))
    (htr : trimChars (u ++ '"' :: w) = u ++ '"' :: w) :
    parseCSVRow ('"' :: u ++ '"' :: '"' :: w ++ ['"']) = [u ++ '"' :: w] := by
  rw [parseCSVRow, if_neg (by rw [isBlank_eq_false_of_mem (c := '"') (by simp) (by decide)]; simp)]
  cases u with
  | nil =>
    obtain ⟨d, t, rfl⟩ : ∃ d t, w = d :: t := by
      cases w with
      | nil => exact absurd ⟨rfl, rfl⟩ hne
      | cons d t => exact ⟨d, t, rfl⟩
    have hd : d ≠ '"' := by rintro rfl; exact hw (by simp)
    rw [show ('"' :: ([] : List Char) ++ '"' :: '"' :: (d :: t) ++ ['"'])
        = '"' :: '"' :: ('"' :: ((d :: t) ++ ['"'])) from by simp]
    rw [parseCSVRowAux.eq_2]
    rw [parseCSVRowAux_quote _ _ _ (by simp [hd])]
    simp only [Bool.not_false]
    rw [parseCSVRowAux_inQ (d :: t) hw _ _]
    rw [parseCSVRowAux_quote _ _ _ (by simp)]
    simp only [Bool.not_true]
    rw [parseCSVRowAux.eq_1]
    simp only [List.nil_append] at htr ⊢
    rw [show ((['"'] : List Char) ++ d :: t) = '"' :: d :: t from by simp, htr]
    rw [stripQuotes_last_ne _ (by
      rw [List.getLast?_cons_cons, List.getLast?_eq_getLast_of_ne_nil (by simp)]
      intro hlast
      have := List.getLast_mem (l := d :: t) (by simp)
      rw [Option.some_inj.mp hlast] at this
      exact hw this)]
    rw [htr]
  | cons c t =>
    have hcq : c ≠ '"' := by rintro rfl; exact hu (by simp)
    rw [show ('"' :: (c :: t) ++ '"' :: '"' :: w ++ ['"'])
        = '"' :: ((c :: t) ++ ('"' :: '"' :: (w ++ ['"']))) from by simp]
    rw [parseCSVRowAux_quote _ _ _ (by simp [hcq])]
    simp only [Bool.not_false]
    rw [parseCSVRowAux_inQ (c :: t) hu _ _]
    rw [parseCSVRowAux.eq_2]
    rw [parseCSVRowAux_inQ w hw _ _]
    rw [parseCSVRowAux_quote _ _ _ (by simp)]
    simp only [Bool.not_true]
    rw [parseCSVRowAux.eq_1]
    have hshape : ((([] : List Char) ++ c :: t) ++ ['"']) ++ w = (c :: t) ++ '"' :: w := by simp
    rw [hshape, htr]
    rw [stripQuotes_head_ne _ (by simp [hcq])]
    rw [htr]

theorem toDecAux_zero (f : Nat) : toDecAux f 0 = [] := by
  cases f <;> simp [toDecAux]

theorem toDecAux_eq_digits : ∀ (n f : Nat), 0 < n → n ≤ f →
    toDecAux f n = ((Nat.digits 10 n).reverse.map Nat.digitChar) := by
  intro n
  induction n using Nat.strong_induction_on with
  | _ n ih =>
    intro f hn hf
    match f with
    | 0 => omega
    | f + 1 =>
      rw [show toDecAux (f + 1) n
          = if n = 0 then [] else toDecAux f (n / 10) ++ [Nat.digitChar (n % 10)] from rfl]
      rw [if_neg (by omega)]
      rw [Nat.digits_def' (by norm_num : (1 : Nat) < 10) hn]
      have hdiv : n / 10 < n := Nat.div_lt_self hn (by norm_num)
      rcases Nat.eq_zero_or_pos (n / 10) with h10 | h10
      · rw [h10, toDecAux_zero]
        simp
      · rw [ih (n / 10) hdiv f h10 (by omega)]
        simp

theorem digitChar_inj_lt : ∀ x, x < 10 → ∀ y, y < 10 →
    Nat.digitChar x = Nat.digitChar y → x = y := by decide

theorem map_digitChar_inj : ∀ (l1 l2 : List Nat), (∀ d ∈ l1, d < 10) → (∀ d ∈ l2, d < 10) →
    l1.map Nat.digitChar = l2.map Nat.digitChar → l1 = l2 := by
  intro l1
  induction l1 with
  | nil => intro l2 _ _ h; cases l2 <;> simp_all
  | cons a t ih =>
    intro l2 h1 h2 h
    cases l2 with
    | nil => simp_all
    | cons b t2 =>
      simp only [List.map_cons, List.cons.injEq] at h
      have hab : a = b := digitChar_inj_lt a (h1 a (by simp)) b (h2 b (by simp)) h.1
      subst hab
      rw [ih t2 (fun d hd => h1 d (by simp [hd])) (fun d hd => h2 d (by simp [hd])) h.2]

theorem natToDec_inj {m n : Nat} (hm : 0 < m) (hn : 0 < n)
    (h : natToDec m = natToDec n) : m = n := by
  rw [natToDec, natToDec, if_neg (by omega), if_neg (by omega),
    toDecAux_eq_digits m m hm le_rfl, toDecAux_eq_digits n n hn le_rfl] at h
  have hrev : (Nat.digits 10 m).reverse = (Nat.digits 10 n).reverse :=
    map_digitChar_inj _ _
      (fun d hd => Nat.digits_lt_base (by norm_num) (List.mem_reverse.mp hd))
      (fun d hd => Nat.digits_lt_base (by norm_num) (List.mem_reverse.mp hd)) h
  exact Nat.digits.injective 10 (List.reverse_injective hrev)

theorem bugId_inj {m n : Nat} (hm : 0 < m) (hn : 0 < n) (h : bugId m = bugId n) : m = n := by
  rw [bugId, bugId] at h
  exact natToDec_inj hm hn (List.append_cancel_left h)

theorem bugId_ne_nil (n : Nat) : bugId n ≠ [] := by
  intro h
  rw [bugId, List.append_eq_nil] at h
  exact absurd h.1 (by decide)

theorem buildRow_id (m : HeaderMappings) (cells : List (List Char)) (id : List Char) :
    (buildRow m cells id).id = id := rfl

theorem mkId_of_not_mem (o : Nat → List Char) (f : Nat) (used : List (List Char))
    (base : List Char) (h : base ∉ used) : mkId o f used base = base := by
  cases f with
  | zero => rfl
  | succ f => rw [mkId, idLoop, if_neg h]

/-- The `BUG-<i+1>` candidate never collides with an id already in the batch,
so the random-retry loop never runs and the loop's semantics coincide with the
oracle-free reference loop. -/
theorem buildRows_eq_det (o : Nat → List Char) (f : Nat) (m : HeaderMappings) :
    ∀ (rows : List (List (List Char))) (i : Nat) (used : List (List Char)),
    (∀ s ∈ used, ∃ k, k < i ∧ s = bugId (k + 1)) →
    buildRows o f m rows i used = buildRowsDet m rows i := by
  intro rows
  induction rows with
  | nil => intro i used _; rfl
  | cons cells rest ih =>
    intro i used hused
    by_cases hskip : skipRow m cells
    · rw [buildRows, if_pos hskip, buildRowsDet, if_pos hskip]
      exact ih (i + 1) used (fun s hs => by
        obtain ⟨k, hk, he⟩ := hused s hs
        exact ⟨k, by omega, he⟩)
    · have hfresh : bugId (i + 1) ∉ used := by
        intro hmem
        obtain ⟨k, hk, he⟩ := hused _ hmem
        have : i + 1 = k + 1 := bugId_inj (by omega) (by omega) he
        omega
      rw [buildRows, if_neg hskip, buildRowsDet, if_neg hskip]
      simp only [mkId_of_not_mem o f used _ hfresh]
      rw [ih (i + 1) (bugId (i + 1) :: used) (fun s hs => by
        rcases List.mem_cons.mp hs with h | h
        · exact ⟨i, by omega, h⟩
        · obtain ⟨k, hk, he⟩ := hused s h
          exact ⟨k, by omega, he⟩)]

theorem buildRowsDet_id_mem (m : HeaderMappings) :
    ∀ (rows : List (List (List Char))) (i : Nat) (r : DefectData),
    r ∈ buildRowsDet m rows i → ∃ k, i ≤ k ∧ r.id = bugId (k + 1) := by
  intro rows
  induction rows with
  | nil => intro i r h; simp [buildRowsDet] at h
  | cons cells rest ih =>
    intro i r h
    rw [buildRowsDet] at h
    split at h
    · obtain ⟨k, hk, he⟩ := ih (i + 1) r h
      exact ⟨k, by omega, he⟩
    · rcases List.mem_cons.mp h with h | h
      · exact ⟨i, le_rfl, by rw [h, buildRow_id]⟩
      · obtain ⟨k, hk, he⟩ := ih (i + 1) r h
        exact ⟨k, by omega, he⟩

theorem buildRowsDet_ids_nodup (m : HeaderMappings) :
    ∀ (rows : List (List (List Char))) (i : Nat),
    ((buildRowsDet m rows i).map DefectData.id).Nodup := by
  intro rows
  induction rows with
  | nil => intro i; simp [buildRowsDet]
  | cons cells rest ih =>
    intro i
    rw [buildRowsDet]
    split
    · exact ih (i + 1)
    · simp only [List.map_cons, List.nodup_cons]
      refine ⟨?_, ih (i + 1)⟩
      intro hmem
      obtain ⟨r, hr, hid⟩ := List.mem_map.mp hmem
      obtain ⟨k, hk, he⟩ := buildRowsDet_id_mem m rest (i + 1) r hr
      rw [he] at hid
      have : i + 1 = k + 1 := bugId_inj (by omega) (by omega) (by
        rw [buildRow_id] at hid
        exact hid.symm)
      omega

theorem buildRowsDet_ids_ne_nil (m : HeaderMappings) :
    ∀ (rows : List (List (List Char))) (i : Nat),
    [] ∉ (buildRowsDet m rows i).map DefectData.id := by
  intro rows
  induction rows with
  | nil => intro i; simp [buildRowsDet]
  | cons cells rest ih =>
    intro i
    rw [buildRowsDet]
    split
    · exact ih (i + 1)
    · simp only [List.map_cons, List.mem_cons]
      rintro (h | h)
      · exact bugId_ne_nil (i + 1) (by rw [buildRow_id] at h; exact h.symm)
      · exact ih (i + 1) h

/-- A successful CSV parse is exactly the oracle-free record build over the
filtered data rows. -/
theorem processCSV_ok {o : Nat → List Char} {f : Nat} {t : List Char}
    {ds : List DefectData} (h : processCSV o f t = Except.ok ds) :
    ds = buildRowsDet (extractDefectHeaderMappings ((parseCSV t).headD []))
      (((parseCSV t).drop 1).filter (fun r => 0 < r.length)) 0 := by
  simp only [processCSV] at h
  split at h
  · exact absurd h (by simp)
  · split at h
    · exact absurd h (by simp)
    · split at h
      · rw [buildRows_eq_det o f _ _ 0 [] (by simp)] at h
        exact (Except.ok.injEq _ _ ▸ h).symm ▸ rfl
      · exact absurd h (by simp)

theorem processCSV_det (t : List Char) (o1 o2 : Nat → List Char) (f1 f2 : Nat) :
    processCSV o1 f1 t = processCSV o2 f2 t := by
  simp only [processCSV]
  rw [buildRows_eq_det o1 f1 _ _ 0 [] (by simp), buildRows_eq_det o2 f2 _ _ 0 [] (by simp)]

theorem findIdxIntAux_none (p : List Char → Bool) :
    ∀ (hs : List (List Char)) (i : Nat), (∀ h ∈ hs, p h = false) →
    findIdxIntAux p hs i = -1 := by
  intro hs
  induction hs with
  | nil => intro i _; rfl
  | cons h t ih =>
    intro i hall
    rw [findIdxIntAux, if_neg (by simp [hall h (by simp)])]
    exact ih (i + 1) (fun x hx => hall x (by simp [hx]))

theorem buildBlock_id (i : Nat) (b : List Char) : (buildBlock i b).id = bugId (i + 1) := rfl

theorem buildBlocks_ids : ∀ (blocks : List (List Char)) (i : Nat),
    (buildBlocks blocks i).map DefectData.id
      = (List.range blocks.length).map (fun k => bugId (i + k + 1)) := by
  intro blocks
  induction blocks with
  | nil => intro i; simp [buildBlocks]
  | cons b rest ih =>
    intro i
    rw [buildBlocks]
    simp only [List.map_cons, buildBlock_id, ih (i + 1), List.length_cons,
      List.range_succ_eq_map, List.map_map]
    refine congrArg₂ List.cons (by simp) ?_
    apply List.map_congr_left
    intro a _
    simp only [Function.comp_apply]
    congr 1
    omega

theorem buildBlocks_length : ∀ (blocks : List (List Char)) (i : Nat),
    (buildBlocks blocks i).length = blocks.length := by
  intro blocks
  induction blocks with
  | nil => intro i; rfl
  | cons b rest ih => intro i; simp [buildBlocks, ih]

/-- A successful plain-text parse is exactly the per-block build over the
retained (non-blank) blocks. -/
theorem processTXT_ok {t : List Char} {ds : List DefectData}
    (h : processTXT t = Except.ok ds) :
    ds = buildBlocks ((splitBlocks t).filter (fun b => !isBlank b)) 0 := by
  simp only [processTXT] at h
  split at h
  · exact ((Except.ok.injEq _ _).mp h).symm
  · exact absurd h (by simp)

theorem scanLine_some {l : List Char} {k : Fin 8} (h : lineField l = some k)
    (f : Fin 8 → Option (List Char)) :
    scanLine f l k = some (extractValueAfterLabel l) := by
  rw [scanLine, h]
  simp

theorem scanLine_ne {l : List Char} {k : Fin 8} (h : lineField l ≠ some k)
    (f : Fin 8 → Option (List Char)) : scanLine f l k = f k := by
  rw [scanLine]
  cases hlf : lineField l with
  | none => rfl
  | some k2 =>
    have hk : k ≠ k2 := fun he => h (by rw [hlf, he])
    simp [hk]

/-- The line scan of a label block is last-match-wins for every field. -/
theorem foldl_scanLine (ls : List (List Char)) :
    ∀ (f : Fin 8 → Option (List Char)) (k : Fin 8),
    (ls.foldl scanLine f) k =
      match (ls.filter (fun l => decide (lineField l = some k))).getLast? with
      | some l => some (extractValueAfterLabel l)
      | none => f k := by
  induction ls with
  | nil => intro f k; rfl
  | cons l t ih =>
    intro f k
    rw [List.foldl_cons, ih (scanLine f l) k, List.filter_cons]
    by_cases hl : lineField l = some k
    · rw [if_pos (by simp [hl])]
      cases hfil : (t.filter (fun l => decide (lineField l = some k))) with
      | nil => simp [scanLine_some hl]
      | cons x xs =>
        rw [List.getLast?_cons_cons]
        cases hlast : (x :: xs).getLast? with
        | none => rw [List.getLast?_eq_none_iff] at hlast; cases hlast
        | some y => rfl
    · rw [if_neg (by simp [hl])]
      cases hfil : (t.filter (fun l => decide (lineField l = some k))).getLast? with
      | none => simp [scanLine_ne hl]
      | some x => simp

/-! ## Claim theorems -/

/-- C1, counterexample: on the Scenario A input the parse produces exactly one
record, and its description field is empty — not "App crashes on login" as
claimed.  The header "Detail" contains none of the description synonyms
(description, desc, details, summary), so the description column is unmapped
and the field falls back to its default. -/
theorem scenarioA_description_not_mapped :
    processCSV oracle0 5 scenarioAText = Except.ok [recordA] ∧
    recordA.description ≠ ("App crashes on login").toList := by
  exact ⟨rfl, by decide⟩

/-- C1, amended: the Scenario A input yields exactly one record with
subject "Login crash", stepsToReproduce "Open app, login", actualResult
"Crash", expectedResult "No crash", featureTag "Auth", bugOrigin "Prod",
testCaseId "TC-9" — and description "" (the "Detail" column matches no
description synonym), independently of the randomness oracle and fuel. -/
theorem scenarioA_parses_with_empty_description (o : Nat → List Char) (f : Nat) :
    processCSV o f scenarioAText = Except.ok [recordA] := by
  rw [processCSV_det scenarioAText o oracle0 f 5]
  rfl

/-- C2, counterexample: a CSV whose only content is the header "Detail" has no
column matching any subject synonym, yet the parse fails with the empty-file
condition (fewer than two parsed rows), not the schema condition: the
empty-file check runs before header mapping. -/
theorem headerOnly_noSubject_emptyFile :
    (extractDefectHeaderMappings ((parseCSV (("Detail").toList)).headD [])).subjectIndex
        = -1 ∧
    processCSV oracle0 5 (("Detail").toList) = Except.error ParseError.emptyFile ∧
    ParseError.emptyFile ≠ ParseError.schemaError := by
  exact ⟨rfl, rfl, by decide⟩

/-- C2, amended: for every CSV text that parses to at least two rows (header
plus at least one data row) and whose header row contains no column
case-insensitively containing any subject synonym (subject, title, summary,
issue, bug), the parse fails with the SchemaError condition and returns no
record collection; a file with no data rows fails with the empty-file
condition instead. -/
theorem noSubjectColumn_schemaError (t : List Char) (o : Nat → List Char) (f : Nat)
    (hlen : 2 ≤ (parseCSV t).length)
    (hnone : ∀ h ∈ (parseCSV t).headD [], ∀ n ∈ subjectNames,
      containsL (toLowerL h) (toLowerL n) = false) :
    processCSV o f t = Except.error ParseError.schemaError := by
  have hidx : (extractDefectHeaderMappings ((parseCSV t).headD [])).subjectIndex = -1 := by
    show findHeaderIndex ((parseCSV t).headD []) subjectNames = -1
    unfold findHeaderIndex
    apply findIdxIntAux_none
    intro h hmem
    rw [List.any_eq_false]
    intro n hn
    exact (by simp [hnone h hmem n hn] :
      ¬containsL (toLowerL h) (toLowerL n) = true)
  simp only [processCSV]
  rw [if_neg (by omega), if_pos hidx]

/-- C2 witness: a two-row CSV whose header "Detail,Other" matches no subject
synonym fails with SchemaError. -/
theorem noSubjectColumn_schemaError_witness :
    processCSV oracle0 5 (("Detail,Other\nv1,v2").toList)
      = Except.error ParseError.schemaError :=
  noSubjectColumn_schemaError (("Detail,Other\nv1,v2").toList) oracle0 5
    (by decide) (by decide)

/-- C3, confirmed: a newline (or carriage-return-newline) met while the row
splitter is inside an open quoted span — equivalently, after an odd number of
non-escaped quote characters in the accumulating row, since each non-escaped
quote toggles the state — is not a row break: a quoted value spanning the
embedded terminator stays inside one logical row, and splitting resumes after
the closing quote's line end. -/
theorem quoted_newline_single_row (a b nl rest : List Char)
    (ha : ∀ c ∈ a, c ≠ '"' ∧ c ≠ '\n' ∧ c ≠ '\r')
    (hb : ∀ c ∈ b, c ≠ '"' ∧ c ≠ '\n' ∧ c ≠ '\r')
    (hnl : nl = ['\n'] ∨ nl = ['\r', '\n']) :
    splitRows ('"' :: (a ++ nl ++ b) ++ '"' :: '\n' :: rest)
      = ('"' :: (a ++ nl ++ b) ++ ['"']) :: splitRowsAux rest [] false := by
  have hh : ((a ++ nl ++ b) ++ '"' :: '\n' :: rest).head? ≠ some '"' := by
    rcases a with _ | ⟨c, t⟩
    · rcases hnl with h | h <;> subst h <;> simp
    · have := (ha c (by simp)).1
      simp [this]
  unfold splitRows
  rw [show ('"' :: (a ++ nl ++ b) ++ '"' :: '\n' :: rest)
      = '"' :: ((a ++ nl ++ b) ++ '"' :: '\n' :: rest) from by simp]
  rw [splitRowsAux_quote _ _ _ hh]
  rw [show ((a ++ nl ++ b) ++ '"' :: '\n' :: rest)
      = a ++ (nl ++ (b ++ '"' :: '\n' :: rest)) from by simp]
  simp only [Bool.not_false]
  rw [splitRowsAux_plain a ha]
  have hrest : ∀ cur2 : List Char,
      splitRowsAux (b ++ '"' :: '\n' :: rest) cur2 true
        = (if isBlank (cur2 ++ (b ++ ['"'])) then [] else [cur2 ++ (b ++ ['"'])])
            ++ splitRowsAux rest [] false := by
    intro cur2
    rw [splitRowsAux_plain b hb]
    rw [splitRowsAux_quote _ _ _ (by simp)]
    simp only [Bool.not_true]
    rw [splitRowsAux_nl_break]
    rw [List.append_assoc]
  rcases hnl with h | h <;> subst h
  · rw [show (['\n'] ++ (b ++ '"' :: '\n' :: rest)) = '\n' :: (b ++ '"' :: '\n' :: rest) from rfl]
    rw [splitRowsAux_nl_inQ, hrest]
    rw [if_neg (by rw [isBlank_eq_false_of_mem (c := '"') (by simp) (by decide)]; simp)]
    simp
  · rw [show (['\r', '\n'] ++ (b ++ '"' :: '\n' :: rest))
        = '\r' :: '\n' :: (b ++ '"' :: '\n' :: rest) from rfl]
    rw [splitRowsAux_cr_inQ, splitRowsAux_nl_inQ, hrest]
    rw [if_neg (by rw [isBlank_eq_false_of_mem (c := '"') (by simp) (by decide)]; simp)]
    simp

/-- C3 witness: the quoted field "x\ny" followed by a second row "z" yields
the multi-line row intact. -/
theorem quoted_newline_single_row_witness :
    splitRows ('"' :: (['x'] ++ ['\n'] ++ ['y']) ++ '"' :: '\n' :: ['z'])
      = ('"' :: (['x'] ++ ['\n'] ++ ['y']) ++ ['"']) :: splitRowsAux ['z'] [] false :=
  quoted_newline_single_row ['x'] ['y'] ['\n'] ['z'] (by decide) (by decide) (Or.inl rfl)

/-- C4, counterexample: the value consisting of one literal quote character,
encoded per the escaping rule as four quote characters, tokenizes to the empty
string, not to a single quote: the shared tokenizer consumes the leading
doubled pair as an escape even though no quoted span is open, and the
wrapping pair is then stripped. -/
theorem allQuotes_roundTrip_fails :
    parseCSVRow (("\"\"\"\"").toList) = [[]] ∧ ([[]] : List (List Char)) ≠ [['"']] := by
  exact ⟨rfl, by decide⟩

/-- C4, amended: the tokenizer round-trip holds as claimed except for values
made of quote characters alone.  A trim-stable quote-free value containing a
comma, wrapped in quotes, tokenizes back to itself; and a value u"w with a
literal quote between quote-free trim-compatible halves, doubled per the
escaping rule and wrapped, tokenizes back to the value with the single quote
— provided the halves are not both empty. -/
theorem tokenizer_roundTrip (v u w : List Char)
    (hv : '"' ∉ v) (htrv : trimChars v = v) (hcv : ',' ∈ v)
    (hu : '"' ∉ u) (hw : '"' ∉ w) (hne : ¬(u = [] ∧ w = []))
    (htruw : trimChars (u ++ '"' :: w) = u ++ '"' :: w) :
    parseCSVRow ('"' :: v ++ ['"']) = [v] ∧
    parseCSVRow ('"' :: u ++ '"' :: '"' :: w ++ ['"']) = [u ++ '"' :: w] :=
  ⟨parseCSVRow_comma_roundTrip v hv htrv hcv,
    parseCSVRow_quote_roundTrip u w hu hw hne htruw⟩

/-- C4 witness: the comma round trip at "x,y" and the quote round trip at
a"b. -/
theorem tokenizer_roundTrip_witness :
    parseCSVRow ('"' :: ("x,y").toList ++ ['"']) = [("x,y").toList] ∧
    parseCSVRow ('"' :: ['a'] ++ '"' :: '"' :: ['b'] ++ ['"']) = [['a'] ++ '"' :: ['b']] :=
  tokenizer_roundTrip (("x,y").toList) ['a'] ['b'] (by decide) (by decide) (by decide)
    (by decide) (by decide) (by decide) (by decide)

/-- C5, code_bug: the shared tokenizer treats a doubled quote as an escape
with no regard to the inside-quotes state, so the row consisting of exactly
two quote characters — an empty quoted field in the Python CSV dialect the
utility documents itself as targeting — tokenizes to a value containing one
quote character; the earlier inline tokenizer, which requires an open span as
the claim states, yields the empty string. -/
theorem emptyQuotedField_divergence :
    parseCSVRow (("\"\"").toList) = [['"']] ∧
    parseCSVRowV1 (("\"\"").toList) = [[]] := by
  exact ⟨rfl, rfl⟩

/-- C6, confirmed: the quote-aware row splitter already collapses the doubled
quote of "a""b" while accumulating the row, the tokenizer then sees "a"b" and
treats the single quote as a toggle, so the composed pipeline returns "ab"
with the literal quote lost — although the tokenizer applied directly to the
original line does return a"b. -/
theorem pipeline_collapses_doubled_quotes :
    parseCSV (("\"a\"\"b\"").toList) = [[("ab").toList]] ∧
    splitRows (("\"a\"\"b\"").toList) = [("\"a\"b\"").toList] ∧
    parseCSVRow (("\"a\"\"b\"").toList) = [("a\"b").toList] := by
  exact ⟨rfl, rfl, rfl⟩

/-- C7, counterexample: the block splitter splits at a single blank line (two
consecutive newline characters), not only at two-or-more blank lines — the
input with one blank line yields two records — and a run of three dashes
splits even in the middle of a line, as the split of "ab---cd" shows. -/
theorem singleBlankLine_splits_blocks :
    processTXT (("Title: A\n\nTitle: B").toList) = Except.ok [recordT1, recordT2] ∧
    splitBlocks (("ab---cd").toList) = [("ab").toList, ("cd").toList] := by
  exact ⟨rfl, rfl⟩

/-- C7, amended: the label-block parser splits wherever a run of two-or-more
newline characters (that is, at least one blank line) or a run of
three-or-more dashes occurs, anywhere in the text; blocks empty after
trimming are discarded; every retained block yields exactly one record whose
id is BUG-<1-based index among retained blocks> with defaults for absent
fields — in particular the five-dash scenario yields two records, the second
with featureTag "Untagged". -/
theorem labelBlocks_structure (t : List Char) (ds : List DefectData)
    (h : processTXT t = Except.ok ds) :
    ds.map DefectData.id = (List.range ds.length).map (fun k => bugId (k + 1)) ∧
    ds.length = ((splitBlocks t).filter (fun b => !isBlank b)).length ∧
    processTXT scenarioCText = Except.ok [recordC1, recordC2] ∧
    recordC2.featureTag = ("Untagged").toList ∧
    splitBlocks (("a\n\nb").toList) = [("a").toList, ("b").toList] := by
  have hds := processTXT_ok h
  subst hds
  refine ⟨?_, buildBlocks_length _ 0, rfl, rfl, rfl⟩
  rw [buildBlocks_ids, buildBlocks_length]
  apply List.map_congr_left
  intro a _
  congr 1
  omega

/-- C7 witness: the Scenario C text instantiates the block-structure theorem. -/
theorem labelBlocks_structure_witness :
    ([recordC1, recordC2]).map DefectData.id
        = (List.range ([recordC1, recordC2]).length).map (fun k => bugId (k + 1)) ∧
    ([recordC1, recordC2]).length
        = ((splitBlocks scenarioCText).filter (fun b => !isBlank b)).length ∧
    processTXT scenarioCText = Except.ok [recordC1, recordC2] ∧
    recordC2.featureTag = ("Untagged").toList ∧
    splitBlocks (("a\n\nb").toList) = [("a").toList, ("b").toList] :=
  labelBlocks_structure scenarioCText [recordC1, recordC2] rfl

/-- C8, counterexample: a block with two Subject lines records the value of
the second (last) line: the forEach body reassigns the field on every match,
so later matching lines replace earlier values, contrary to the claim. -/
theorem duplicate_label_last_wins :
    processTXT (("Subject: A\nSubject: B").toList) = Except.ok [recordS] ∧
    recordS.subject = ("B").toList ∧
    ("B").toList ≠ ("A").toList := by
  exact ⟨rfl, rfl, by decide⟩

/-- C8, amended: within one label block, for each canonical field, the value
recorded is the one extracted from the LAST line of the block matching that
field's labels (everything after the first colon, trimmed); earlier matching
lines are overwritten. -/
theorem labelScan_last_match (block : List Char) (k : Fin 8) :
    ((splitLines block).foldl scanLine (fun _ => none)) k =
      match ((splitLines block).filter (fun l => decide (lineField l = some k))).getLast? with
      | some l => some (extractValueAfterLabel l)
      | none => none :=
  foldl_scanLine (splitLines block) (fun _ => none) k

/-- C9, confirmed: in every record collection produced by either ingestion
path, all ids are pairwise distinct and none is empty.  The synthesized base
id BUG-<row position + 1> is always fresh (positions are strictly increasing
and decimal rendering is injective), so the random-suffix retry loop never
runs and no record is ever dropped over an id collision. -/
theorem ids_unique_and_nonempty (tc tt : List Char) (o : Nat → List Char) (f : Nat)
    (ds dt : List DefectData)
    (hc : processCSV o f tc = Except.ok ds) (ht : processTXT tt = Except.ok dt) :
    ((ds.map DefectData.id).Nodup ∧ [] ∉ ds.map DefectData.id) ∧
    ((dt.map DefectData.id).Nodup ∧ [] ∉ dt.map DefectData.id) := by
  constructor
  · have hds := processCSV_ok hc
    subst hds
    exact ⟨buildRowsDet_ids_nodup _ _ 0, buildRowsDet_ids_ne_nil _ _ 0⟩
  · have hdt := processTXT_ok ht
    subst hdt
    rw [buildBlocks_ids]
    constructor
    · refine List.Nodup.map ?_ (List.nodup_range _)
      intro a b h
      have := bugId_inj (by omega) (by omega) h
      omega
    · intro hmem
      obtain ⟨k, hk, he⟩ := List.mem_map.mp hmem
      exact bugId_ne_nil (0 + k + 1) he

/-- C9 witness: a one-row CSV and a one-block text instantiate the
uniqueness/non-emptiness theorem. -/
theorem ids_unique_and_nonempty_witness :
    ((([recordCsvW]).map DefectData.id).Nodup ∧ [] ∉ ([recordCsvW]).map DefectData.id) ∧
    ((([recordTxtW]).map DefectData.id).Nodup ∧ [] ∉ ([recordTxtW]).map DefectData.id) :=
  ids_unique_and_nonempty (("Title,Desc\nT1,D1").toList) (("Subject: X").toList)
    oracle0 5 [recordCsvW] [recordTxtW] rfl rfl

/-- C10, confirmed: the CSV parse is a deterministic function of the file
text: two runs with arbitrary (and possibly different) randomness oracles and
retry bounds return identical results — content, order and id values alike —
because id disambiguation only fires on true collisions and none can occur. -/
theorem csv_parse_deterministic (t : List Char) (o1 o2 : Nat → List Char) (f1 f2 : Nat) :
    processCSV o1 f1 t = processCSV o2 f2 t :=
  processCSV_det t o1 o2 f1 f2
